import Mathlib

/-!
Shallow embedding of the incremental syntax-highlighting engine of the
`edit` text editor (files `src/syntax/highlighter.rs`, `src/syntax/language.rs`),
together with theorems settling the frozen specification claims.

Modelling conventions:
* Rust `usize` values (line numbers, byte offsets, lengths) are `Nat`.
* `Duration` values are `Nat` in milliseconds (the only operations the code
  performs on durations are comparison, addition, halving and division by a
  count, all of which are faithfully mirrored on `Nat`).
* Rust `HashMap<usize, V>` fields are total functions `Nat → Option V`; a
  `HashSet<usize>` is `Nat → Bool`.  The map-rebuilding loops of
  `handle_text_insert` / `handle_text_delete` insert each old entry at a
  shifted key; since the shift is injective the rebuilt map is written here
  pointwise, by cases on which region the queried key falls in.
* The third-party `synoptic` tokenizer backend and `DefaultHasher` are not
  part of this repository; they are passed in as explicit function
  parameters (`backend`, `tok`, `hash`), and wall-clock measurement
  (`Instant::now`/`elapsed`) is an explicit duration argument.
-/

namespace Edit

/-- The closed enumeration of languages from `src/syntax/language.rs`. -/
inductive Language where
  | Rust
  | JavaScript
  | TypeScript
  | Python
  | Json
  | Html
  | Css
  | Markdown
  | Yaml
  | Toml
  | Sql
  | PlainText
deriving DecidableEq, Repr

/-- `Language::primary_extension` from `language.rs`. -/
def Language.primary_extension : Language → String
  | .Rust => "rs"
  | .JavaScript => "js"
  | .TypeScript => "ts"
  | .Python => "py"
  | .Json => "json"
  | .Html => "html"
  | .Css => "css"
  | .Markdown => "md"
  | .Yaml => "yaml"
  | .Toml => "toml"
  | .Sql => "sql"
  | .PlainText => "txt"

/-- `Language::is_tier_1` from `language.rs`. -/
def Language.is_tier_1 (l : Language) : Bool :=
  match l with
  | .Rust | .JavaScript | .TypeScript | .Python | .Json => true
  | _ => false

/-- `Language::is_tier_2` from `language.rs`. -/
def Language.is_tier_2 (l : Language) : Bool :=
  match l with
  | .Html | .Css | .Markdown | .Yaml | .Toml | .Sql => true
  | _ => false

/-- `LanguageConfig` from `language.rs`. -/
structure LanguageConfig where
  language : Language
  enabled : Bool
  supports_multiline : Bool
  tab_width : Nat
deriving DecidableEq, Repr

/-- `LanguageConfig::new`. -/
def LanguageConfig.new (language : Language) : LanguageConfig :=
  { language := language, enabled := true, supports_multiline := true, tab_width := 4 }

/-- `LanguageConfig::disabled`. -/
def LanguageConfig.mkDisabled (language : Language) : LanguageConfig :=
  { language := language, enabled := false, supports_multiline := true, tab_width := 4 }

/-- Rust `str::len` — the UTF-8 byte length of a string. -/
def byteLen (s : String) : Nat := s.utf8ByteSize

/-- `TokenInfo` from `highlighter.rs`: one colored span of a line. -/
structure TokenInfo where
  text : String
  kind : Option String
  start_offset : Nat
  end_offset : Nat
deriving DecidableEq, Repr

/-- `TokenInfo::new`. -/
def TokenInfo.new (text : String) (kind : Option String) (start_offset end_offset : Nat) :
    TokenInfo :=
  { text := text, kind := kind, start_offset := start_offset, end_offset := end_offset }

/-- `TokenInfo::plain_text`. -/
def TokenInfo.plain_text (text : String) (start_offset end_offset : Nat) : TokenInfo :=
  TokenInfo.new text none start_offset end_offset

/-- `TokenInfo::highlighted`. -/
def TokenInfo.highlighted (text : String) (kind : String) (start_offset end_offset : Nat) :
    TokenInfo :=
  TokenInfo.new text (some kind) start_offset end_offset

/-- `HighlightingMetrics` from `highlighter.rs`; all durations in ms. -/
structure HighlightingMetrics where
  total_time : Nat
  lines_highlighted : Nat
  tokens_generated : Nat
  avg_time_per_line : Nat
  max_line_time : Nat
  cache_hits : Nat
  cache_misses : Nat
deriving DecidableEq, Repr

/-- `HighlightingMetrics::default`. -/
def HighlightingMetrics.zero : HighlightingMetrics :=
  { total_time := 0, lines_highlighted := 0, tokens_generated := 0,
    avg_time_per_line := 0, max_line_time := 0, cache_hits := 0, cache_misses := 0 }

/-- `HighlightingMetrics::record_line_highlight`. -/
def HighlightingMetrics.record_line_highlight (m : HighlightingMetrics)
    (duration token_count : Nat) : HighlightingMetrics :=
  let m := { m with total_time := m.total_time + duration,
                    lines_highlighted := m.lines_highlighted + 1,
                    tokens_generated := m.tokens_generated + token_count }
  let m := if m.lines_highlighted > 0
    then { m with avg_time_per_line := m.total_time / m.lines_highlighted }
    else m
  if duration > m.max_line_time then { m with max_line_time := duration } else m

/-- `HighlightingMetrics::record_cache_hit`. -/
def HighlightingMetrics.record_cache_hit (m : HighlightingMetrics) : HighlightingMetrics :=
  { m with cache_hits := m.cache_hits + 1 }

/-- `HighlightingMetrics::record_cache_miss`. -/
def HighlightingMetrics.record_cache_miss (m : HighlightingMetrics) : HighlightingMetrics :=
  { m with cache_misses := m.cache_misses + 1 }

/-- `HighlightingState` from `highlighter.rs` (the richer revision, with the
background-queue fields). -/
structure HighlightingState where
  language : Language
  config : LanguageConfig
  enabled : Bool
  metrics : HighlightingMetrics
  token_cache : Nat → Option (List TokenInfo)
  cache_validity : Nat → Option Nat
  dirty_lines : Nat → Bool
  needs_full_rehighlight : Bool
  viewport : Option (Nat × Nat)
  background_queue : List Nat
  background_in_progress : Nat → Bool
  background_batch_size : Nat
  background_lookahead : Nat

/-- `HighlightingState::new`. -/
def HighlightingState.new (language : Language) : HighlightingState :=
  { language := language
    config := LanguageConfig.new language
    enabled := true
    metrics := HighlightingMetrics.zero
    token_cache := fun _ => none
    cache_validity := fun _ => none
    dirty_lines := fun _ => false
    needs_full_rehighlight := false
    viewport := none
    background_queue := []
    background_in_progress := fun _ => false
    background_batch_size := 10
    background_lookahead := 50 }

/-- `HighlightingState::disabled`. -/
def HighlightingState.mkDisabled (language : Language) : HighlightingState :=
  { HighlightingState.new language with
      config := LanguageConfig.mkDisabled language
      enabled := false }

/-- `HighlightingState::has_cached_tokens`. -/
def HighlightingState.has_cached_tokens (s : HighlightingState)
    (line_number content_hash : Nat) : Bool :=
  (s.cache_validity line_number == some content_hash) && (s.token_cache line_number).isSome

/-- `HighlightingState::get_cached_tokens`. -/
def HighlightingState.get_cached_tokens (s : HighlightingState) (line_number : Nat) :
    Option (List TokenInfo) :=
  s.token_cache line_number

/-- `HighlightingState::cache_tokens`. -/
def HighlightingState.cache_tokens (s : HighlightingState) (line_number content_hash : Nat)
    (tokens : List TokenInfo) : HighlightingState :=
  { s with token_cache := fun k => if k = line_number then some tokens else s.token_cache k
           cache_validity := fun k => if k = line_number then some content_hash
                                      else s.cache_validity k }

/-- `HighlightingState::invalidate_line_cache`. -/
def HighlightingState.invalidate_line_cache (s : HighlightingState) (line_number : Nat) :
    HighlightingState :=
  { s with token_cache := fun k => if k = line_number then none else s.token_cache k
           cache_validity := fun k => if k = line_number then none else s.cache_validity k }

/-- `HighlightingState::invalidate_line_range_cache` (the loop over
`start_line..=end_line` written pointwise). -/
def HighlightingState.invalidate_line_range_cache (s : HighlightingState)
    (start_line end_line : Nat) : HighlightingState :=
  { s with token_cache := fun k =>
             if start_line ≤ k ∧ k ≤ end_line then none else s.token_cache k
           cache_validity := fun k =>
             if start_line ≤ k ∧ k ≤ end_line then none else s.cache_validity k }

/-- `HighlightingState::clear_cache`. -/
def HighlightingState.clear_cache (s : HighlightingState) : HighlightingState :=
  { s with token_cache := fun _ => none, cache_validity := fun _ => none }

/-- `HighlightingState::mark_line_dirty`: insert into the dirty set, then
invalidate the cache entry. -/
def HighlightingState.mark_line_dirty (s : HighlightingState) (line_number : Nat) :
    HighlightingState :=
  ({ s with dirty_lines := fun k => if k = line_number then true else s.dirty_lines k
   } : HighlightingState).invalidate_line_cache line_number

/-- `HighlightingState::mark_lines_dirty`: insert the range into the dirty set,
then invalidate the range. -/
def HighlightingState.mark_lines_dirty (s : HighlightingState) (start_line end_line : Nat) :
    HighlightingState :=
  ({ s with dirty_lines := fun k =>
       if start_line ≤ k ∧ k ≤ end_line then true else s.dirty_lines k
   } : HighlightingState).invalidate_line_range_cache start_line end_line

/-- `HighlightingState::mark_document_dirty`. -/
def HighlightingState.mark_document_dirty (s : HighlightingState) : HighlightingState :=
  { s.clear_cache with needs_full_rehighlight := true, dirty_lines := fun _ => false }

/-- `HighlightingState::is_line_dirty`. -/
def HighlightingState.is_line_dirty (s : HighlightingState) (line_number : Nat) : Bool :=
  s.needs_full_rehighlight || s.dirty_lines line_number

/-- `HighlightingState::clear_line_dirty`. -/
def HighlightingState.clear_line_dirty (s : HighlightingState) (line_number : Nat) :
    HighlightingState :=
  { s with dirty_lines := fun k => if k = line_number then false else s.dirty_lines k }

/-- `HighlightingState::clear_all_dirty`. -/
def HighlightingState.clear_all_dirty (s : HighlightingState) : HighlightingState :=
  { s with dirty_lines := fun _ => false, needs_full_rehighlight := false }

/-- `HighlightingState::has_valid_cache` (key presence only, no hash check). -/
def HighlightingState.has_valid_cache (s : HighlightingState) (line_number : Nat) : Bool :=
  (s.token_cache line_number).isSome

/-- `HighlightingState::rebuild_background_queue`: clear the queue; if no
viewport, stop; otherwise enumerate candidates above and below the viewport,
keep uncached lines not in progress, and sort by distance
(`sort_by_key` on the paired distance). -/
def HighlightingState.rebuild_background_queue (s : HighlightingState) : HighlightingState :=
  match s.viewport with
  | none => { s with background_queue := [] }
  | some (start_line, end_line) =>
    let background_start := start_line - s.background_lookahead
    let above :=
      ((List.range' background_start (start_line - background_start)).filter
        (fun l => !s.has_valid_cache l && !s.background_in_progress l)).map
        (fun l => (start_line - l, l))
    let below :=
      ((List.range' end_line s.background_lookahead).filter
        (fun l => !s.has_valid_cache l && !s.background_in_progress l)).map
        (fun l => (l - end_line + 1, l))
    let sorted := (above ++ below).mergeSort (fun a b => decide (a.1 ≤ b.1))
    { s with background_queue := sorted.map (fun c => c.2) }

/-- `HighlightingState::update_viewport`: scroll hysteresis — with a viewport
already set and both endpoints moving by fewer than 5 lines, do nothing;
otherwise overwrite the viewport and rebuild the queue. -/
def HighlightingState.update_viewport (s : HighlightingState)
    (start_line end_line : Nat) : HighlightingState :=
  match s.viewport with
  | some (old_start, old_end) =>
    if Nat.dist start_line old_start < 5 ∧ Nat.dist end_line old_end < 5 then s
    else ({ s with viewport := some (start_line, end_line) }
          : HighlightingState).rebuild_background_queue
  | none =>
    ({ s with viewport := some (start_line, end_line) }
     : HighlightingState).rebuild_background_queue

/-- `HighlightingState::get_background_batch`: drain up to `batch_size` lines
from the queue front and mark them in progress. -/
def HighlightingState.get_background_batch (s : HighlightingState) :
    List Nat × HighlightingState :=
  let batch_size := min s.background_batch_size s.background_queue.length
  let batch := s.background_queue.take batch_size
  (batch,
   { s with background_queue := s.background_queue.drop batch_size
            background_in_progress := fun l =>
              s.background_in_progress l || batch.contains l })

/-- `HighlightingState::complete_background_line`. -/
def HighlightingState.complete_background_line (s : HighlightingState) (line_number : Nat) :
    HighlightingState :=
  { s with background_in_progress := fun k =>
      if k = line_number then false else s.background_in_progress k }

/-- `HighlightingState::has_background_work`. -/
def HighlightingState.has_background_work (s : HighlightingState) : Bool :=
  !s.background_queue.isEmpty

/-- The state part of `HighlightingState::handle_text_insert` before the queue
rebuild: every cache/validity/dirty entry at key `≥ start_line` is re-inserted
shifted up by `lines_added`, entries below keep their key, and the insertion
area `[start_line, start_line + lines_added)` is marked dirty (the source's
`for line in start_line..(start_line + lines_added)` loop). -/
def HighlightingState.insertShift (s : HighlightingState)
    (start_line lines_added : Nat) : HighlightingState :=
  { s with
    token_cache := fun k =>
      if k < start_line then s.token_cache k
      else if start_line + lines_added ≤ k then s.token_cache (k - lines_added)
      else none
    cache_validity := fun k =>
      if k < start_line then s.cache_validity k
      else if start_line + lines_added ≤ k then s.cache_validity (k - lines_added)
      else none
    dirty_lines := fun k =>
      if k < start_line then s.dirty_lines k
      else if start_line + lines_added ≤ k then s.dirty_lines (k - lines_added)
      else true }

/-- `HighlightingState::handle_text_insert`. -/
def HighlightingState.handle_text_insert (s : HighlightingState)
    (start_line lines_added : Nat) : HighlightingState :=
  if lines_added = 0 then s
  else
    let shifted := s.insertShift start_line lines_added
    if shifted.viewport.isSome then shifted.rebuild_background_queue else shifted

/-- The state part of `HighlightingState::handle_text_delete` before the queue
rebuild: cache/validity/dirty entries inside `[start_line, start_line +
lines_deleted)` are dropped, entries below `start_line` are kept, entries at
`≥ start_line + lines_deleted` are shifted down; then `start_line` is inserted
into the dirty set (with no cache invalidation), and in-progress entries
inside the deleted range are dropped (`retain`). -/
def HighlightingState.deleteShift (s : HighlightingState)
    (start_line lines_deleted : Nat) : HighlightingState :=
  { s with
    token_cache := fun k =>
      if k < start_line then s.token_cache k else s.token_cache (k + lines_deleted)
    cache_validity := fun k =>
      if k < start_line then s.cache_validity k else s.cache_validity (k + lines_deleted)
    dirty_lines := fun k =>
      if k = start_line then true
      else if k < start_line then s.dirty_lines k
      else s.dirty_lines (k + lines_deleted)
    background_in_progress := fun k =>
      s.background_in_progress k && (decide (k < start_line)
        || decide (start_line + lines_deleted ≤ k)) }

/-- `HighlightingState::handle_text_delete`. -/
def HighlightingState.handle_text_delete (s : HighlightingState)
    (start_line lines_deleted : Nat) : HighlightingState :=
  if lines_deleted = 0 then s
  else
    let shifted := s.deleteShift start_line lines_deleted
    if shifted.viewport.isSome then shifted.rebuild_background_queue else shifted

/-- One token emitted by the `synoptic` backend for a line: either a
highlighted token with a kind, or plain text (`synoptic::TokOpt`). -/
inductive TokOpt where
  | tokSome (text : String) (kind : String)
  | tokNone (text : String)
deriving DecidableEq, Repr

/-- The text carried by a backend token. -/
def TokOpt.text : TokOpt → String
  | .tokSome t _ => t
  | .tokNone t => t

/-- The token-collection loop of `SyntaxHighlighter::highlight_line` /
`highlight_document`: walk the backend's tokens keeping a running byte
offset `current_offset`; each token becomes a span from the current offset
to the current offset plus its byte length. -/
def collectTokens (current_offset : Nat) : List TokOpt → List TokenInfo
  | [] => []
  | .tokSome text kind :: rest =>
    TokenInfo.highlighted text kind current_offset (current_offset + byteLen text) ::
      collectTokens (current_offset + byteLen text) rest
  | .tokNone text :: rest =>
    TokenInfo.plain_text text current_offset (current_offset + byteLen text) ::
      collectTokens (current_offset + byteLen text) rest

/-- `SyntaxHighlighter::highlight_line` from `highlighter.rs`: lazy backend
construction never fails in the source (a manual rule set is built when
`synoptic::from_extension` has none), so the `Result` is always `Ok`.  The
backend's per-line token stream (`highlighter.run` + `highlighter.line`) is
the `backend` parameter.  Empty input returns the empty list. -/
def SyntaxHighlighter.highlight_line (backend : String → List TokOpt)
    (line : String) (_line_number : Nat) : Except String (List TokenInfo) :=
  if line.isEmpty then Except.ok []
  else Except.ok (collectTokens 0 (backend line))

/-- Rust `str::lines`: split at `\n`, dropping one trailing empty segment
produced by a final line ending, and stripping a trailing `\r` from each
resulting line. -/
def rustLines (s : String) : List String :=
  let parts := s.splitOn "\n"
  let parts := if parts.getLast? = some "" then parts.dropLast else parts
  parts.map (fun l => if l.endsWith "\r" then l.dropRight 1 else l)

/-- `SyntaxHighlighter::highlight_document`: run the backend over the whole
document split into lines; an out-of-range line number yields the empty
list; otherwise the requested line's tokens are collected exactly as in
`highlight_line`.  `backend` is `highlighter.line(n, line)` after
`highlighter.run` on the full document. -/
def SyntaxHighlighter.highlight_document (backend : Nat → String → List TokOpt)
    (document : String) (line_number : Nat) : Except String (List TokenInfo) :=
  match (rustLines document).get? line_number with
  | none => Except.ok []
  | some line => Except.ok (collectTokens 0 (backend line_number line))

/-- The static `EXTENSION_MAP` from `language.rs`, in source order. -/
def extensionMap : List (String × Language) :=
  [("rs", .Rust),
   ("js", .JavaScript), ("mjs", .JavaScript), ("cjs", .JavaScript), ("jsx", .JavaScript),
   ("ts", .TypeScript), ("tsx", .TypeScript),
   ("py", .Python), ("pyw", .Python), ("pyi", .Python),
   ("json", .Json), ("jsonc", .Json), ("json5", .Json),
   ("html", .Html), ("htm", .Html), ("xhtml", .Html),
   ("css", .Css), ("scss", .Css), ("sass", .Css), ("less", .Css),
   ("md", .Markdown), ("markdown", .Markdown), ("mdown", .Markdown), ("mkd", .Markdown),
   ("yaml", .Yaml), ("yml", .Yaml),
   ("toml", .Toml),
   ("sql", .Sql), ("sqlite", .Sql), ("mysql", .Sql), ("pgsql", .Sql),
   ("txt", .PlainText), ("text", .PlainText)]

/-- Split a character list at its last occurrence of `sep`, returning the
parts before and after it; `none` when `sep` does not occur. -/
def splitAtLastSep (sep : Char) : List Char → Option (List Char × List Char)
  | [] => none
  | c :: rest =>
    match splitAtLastSep sep rest with
    | some (pre, post) => some (c :: pre, post)
    | none => if c = sep then some ([], rest) else none

/-- Rust `Path::file_name` on a Unix path string: the component after the
last `/` (the whole string when there is no separator). -/
def pathFileName (p : String) : List Char :=
  match splitAtLastSep '/' p.data with
  | some (_, name) => name
  | none => p.data

/-- Rust `Path::extension`: the part of the file name after its last `.`;
`none` when the name has no dot or when the only text before the last dot
is empty (a leading-dot hidden file). -/
def pathExtension (p : String) : Option String :=
  match splitAtLastSep '.' (pathFileName p) with
  | some (pre, ext) => if pre = [] then none else some (String.mk ext)
  | none => none

/-- `str::to_lowercase` restricted to the ASCII fold the detection contract
requires (extensions are ASCII). -/
def lowerAscii (s : String) : String := String.mk (s.data.map Char.toLower)

/-- `LanguageDetector` from `language.rs`: the manual override map, modelled
as an association list (`List.lookup` finds the most recent insertion). -/
structure LanguageDetector where
  overrides : List (String × Language)

/-- `LanguageDetector::new`. -/
def LanguageDetector.new : LanguageDetector := ⟨[]⟩

/-- `LanguageDetector::detect_language`: manual override first, then the
lower-cased extension in the static table, then `PlainText`. -/
def LanguageDetector.detect_language (d : LanguageDetector) (path : String) : Language :=
  match d.overrides.lookup path with
  | some language => language
  | none =>
    match pathExtension path with
    | some ext =>
      match extensionMap.lookup (lowerAscii ext) with
      | some language => language
      | none => Language.PlainText
    | none => Language.PlainText

/-- `LanguageDetector::set_language_override` (`HashMap::insert`). -/
def LanguageDetector.set_language_override (d : LanguageDetector)
    (path : String) (language : Language) : LanguageDetector :=
  ⟨(path, language) :: d.overrides.filter (fun e => !(e.1 == path))⟩

/-- `LanguageDetector::remove_language_override` (`HashMap::remove`),
returning the previously held language, if any. -/
def LanguageDetector.remove_language_override (d : LanguageDetector)
    (path : String) : Option Language × LanguageDetector :=
  (d.overrides.lookup path, ⟨d.overrides.filter (fun e => !(e.1 == path))⟩)

/-- `HighlightingService` from `highlighter.rs`.  The per-language
`SyntaxHighlighter` memo only holds tokenizer scratch state and is handled
by the explicit `tok` parameter of the operations below; it is not part of
the observable state the claims mention. -/
structure HighlightingService where
  language_detector : LanguageDetector
  enabled : Bool
  global_metrics : HighlightingMetrics
  line_timeout : Nat
  max_line_length : Nat

/-- `HighlightingService::new`: 50 ms line timeout, 10000-byte line cap. -/
def HighlightingService.new : HighlightingService :=
  { language_detector := LanguageDetector.new
    enabled := true
    global_metrics := HighlightingMetrics.zero
    line_timeout := 50
    max_line_length := 10000 }

/-- `HighlightingService::create_highlighting_state`. -/
def HighlightingService.create_highlighting_state (svc : HighlightingService)
    (file_path : String) : HighlightingState :=
  let language := svc.language_detector.detect_language file_path
  if svc.enabled && (language.is_tier_1 || language.is_tier_2) then
    HighlightingState.new language
  else
    HighlightingState.mkDisabled language

/-- `HighlightingService::set_max_line_length`. -/
def HighlightingService.set_max_line_length (svc : HighlightingService) (n : Nat) :
    HighlightingService :=
  { svc with max_line_length := n }

/-- `HighlightingService::set_line_timeout`. -/
def HighlightingService.set_line_timeout (svc : HighlightingService) (timeout : Nat) :
    HighlightingService :=
  { svc with line_timeout := timeout }

/-- `HighlightingService::highlight_line`.  `hash` stands for
`calculate_line_hash` (`DefaultHasher`, deterministic in-process), `tok` for
`SyntaxHighlighter::highlight_line` of the per-language adapter, and `dur`
for the measured elapsed tokenize time in ms.  Returns the span result
together with the updated document state and service. -/
def HighlightingService.highlight_line (hash : String → Nat)
    (tok : Language → String → Nat → Except String (List TokenInfo)) (dur : Nat)
    (svc : HighlightingService) (state : HighlightingState)
    (line : String) (line_number : Nat) :
    Except String (List TokenInfo) × HighlightingState × HighlightingService :=
  if !state.enabled || !svc.enabled then
    (Except.ok [TokenInfo.plain_text line 0 (byteLen line)], state, svc)
  else if byteLen line > svc.max_line_length then
    (Except.ok [TokenInfo.plain_text line 0 (byteLen line)], state, svc)
  else
    let content_hash := hash line
    if state.has_cached_tokens line_number content_hash then
      let state := { state with metrics := state.metrics.record_cache_hit }
      (Except.ok ((state.get_cached_tokens line_number).getD []), state, svc)
    else
      let state := { state with metrics := state.metrics.record_cache_miss }
      match tok state.language line line_number with
      | Except.error e => (Except.error e, state, svc)
      | Except.ok tokens =>
        if dur > svc.line_timeout then
          (Except.ok [TokenInfo.plain_text line 0 (byteLen line)], state, svc)
        else
          let state := { state with
            metrics := state.metrics.record_line_highlight dur tokens.length }
          let svc := { svc with
            global_metrics := svc.global_metrics.record_line_highlight dur tokens.length }
          let state := state.cache_tokens line_number content_hash tokens
          (Except.ok tokens, state, svc)

/-- The per-line body of `HighlightingService::highlight_background_batch`:
fetch the content; skip missing or over-long lines; skip lines already
validly cached; otherwise tokenize and cache only when the call succeeded
within the tightened deadline `line_timeout / 2`; always mark the line
completed.  `durs` gives the measured tokenize time per line. -/
def backgroundStep (hash : String → Nat)
    (tok : Language → String → Nat → Except String (List TokenInfo)) (durs : Nat → Nat)
    (svc : HighlightingService) (get_line_content : Nat → Option String)
    (acc : Nat × HighlightingState) (line_number : Nat) : Nat × HighlightingState :=
  let (highlighted_count, state) := acc
  let (highlighted_count, state) :=
    match get_line_content line_number with
    | none => (highlighted_count, state)
    | some line_content =>
      if byteLen line_content ≤ svc.max_line_length then
        let content_hash := hash line_content
        if !state.has_cached_tokens line_number content_hash then
          match tok state.language line_content line_number with
          | Except.error _ => (highlighted_count, state)
          | Except.ok tokens =>
            if durs line_number ≤ svc.line_timeout / 2 then
              (highlighted_count + 1, state.cache_tokens line_number content_hash tokens)
            else (highlighted_count, state)
        else (highlighted_count, state)
      else (highlighted_count, state)
  (highlighted_count, state.complete_background_line line_number)

/-- `HighlightingService::highlight_background_batch`: nothing when disabled;
otherwise pop one batch and process each popped line with `backgroundStep`.
The service is returned unchanged — the loop never touches
`global_metrics`. -/
def HighlightingService.highlight_background_batch (hash : String → Nat)
    (tok : Language → String → Nat → Except String (List TokenInfo)) (durs : Nat → Nat)
    (svc : HighlightingService) (state : HighlightingState)
    (get_line_content : Nat → Option String) :
    Nat × HighlightingState × HighlightingService :=
  if !state.enabled || !svc.enabled then (0, state, svc)
  else
    let (batch, state) := state.get_background_batch
    let (highlighted_count, state) :=
      batch.foldl (backgroundStep hash tok durs svc get_line_content) (0, state)
    (highlighted_count, state, svc)

/-! ### Helper lemmas -/

theorem utf8go_append (a b : List Char) :
    String.utf8ByteSize.go (a ++ b) = String.utf8ByteSize.go a + String.utf8ByteSize.go b := by
  induction a with
  | nil => simp [String.utf8ByteSize.go]
  | cons c cs ih => simp [String.utf8ByteSize.go, ih]; omega

theorem byteLen_append (x y : String) : byteLen (x ++ y) = byteLen x + byteLen y := by
  cases x with
  | mk a =>
    cases y with
    | mk b =>
      show String.utf8ByteSize ⟨a ++ b⟩ = String.utf8ByteSize ⟨a⟩ + String.utf8ByteSize ⟨b⟩
      exact utf8go_append a b

theorem byteLen_empty : byteLen "" = 0 := rfl

/-- Rebuilding the background queue changes only the queue field. -/
theorem rebuild_background_queue_frame (s : HighlightingState) :
    s.rebuild_background_queue.token_cache = s.token_cache ∧
    s.rebuild_background_queue.cache_validity = s.cache_validity ∧
    s.rebuild_background_queue.dirty_lines = s.dirty_lines ∧
    s.rebuild_background_queue.needs_full_rehighlight = s.needs_full_rehighlight ∧
    s.rebuild_background_queue.viewport = s.viewport ∧
    s.rebuild_background_queue.background_in_progress = s.background_in_progress ∧
    s.rebuild_background_queue.metrics = s.metrics ∧
    s.rebuild_background_queue.enabled = s.enabled := by
  unfold HighlightingState.rebuild_background_queue
  cases h : s.viewport with
  | none => exact ⟨rfl, rfl, rfl, rfl, rfl, rfl, rfl, rfl⟩
  | some vp => cases vp with
    | mk a b => exact ⟨rfl, rfl, rfl, rfl, rfl, rfl, rfl, rfl⟩

/-- `handle_text_insert` with `n ≠ 0` applies `insertShift` to the
cache/validity/dirty structures and leaves the rest of the state (except
the queue) alone. -/
theorem handle_text_insert_frame (s : HighlightingState) (a n : Nat) (hn : n ≠ 0) :
    (s.handle_text_insert a n).token_cache = (s.insertShift a n).token_cache ∧
    (s.handle_text_insert a n).cache_validity = (s.insertShift a n).cache_validity ∧
    (s.handle_text_insert a n).dirty_lines = (s.insertShift a n).dirty_lines ∧
    (s.handle_text_insert a n).viewport = s.viewport ∧
    (s.handle_text_insert a n).background_in_progress = s.background_in_progress ∧
    (s.handle_text_insert a n).metrics = s.metrics ∧
    (s.handle_text_insert a n).needs_full_rehighlight = s.needs_full_rehighlight := by
  unfold HighlightingState.handle_text_insert
  rw [if_neg hn]
  dsimp only
  cases h : (s.insertShift a n).viewport.isSome with
  | true =>
    rw [if_pos rfl]
    have hr := rebuild_background_queue_frame (s.insertShift a n)
    exact ⟨hr.1, hr.2.1, hr.2.2.1, hr.2.2.2.2.1, hr.2.2.2.2.2.1, hr.2.2.2.2.2.2.1,
           hr.2.2.2.1⟩
  | false =>
    rw [if_neg (by simp)]
    exact ⟨rfl, rfl, rfl, rfl, rfl, rfl, rfl⟩

/-- `handle_text_delete` with `n ≠ 0` likewise factors through
`deleteShift`. -/
theorem handle_text_delete_frame (s : HighlightingState) (a n : Nat) (hn : n ≠ 0) :
    (s.handle_text_delete a n).token_cache = (s.deleteShift a n).token_cache ∧
    (s.handle_text_delete a n).cache_validity = (s.deleteShift a n).cache_validity ∧
    (s.handle_text_delete a n).dirty_lines = (s.deleteShift a n).dirty_lines ∧
    (s.handle_text_delete a n).viewport = s.viewport ∧
    (s.handle_text_delete a n).background_in_progress
      = (s.deleteShift a n).background_in_progress ∧
    (s.handle_text_delete a n).metrics = s.metrics ∧
    (s.handle_text_delete a n).needs_full_rehighlight = s.needs_full_rehighlight := by
  unfold HighlightingState.handle_text_delete
  rw [if_neg hn]
  dsimp only
  cases h : (s.deleteShift a n).viewport.isSome with
  | true =>
    rw [if_pos rfl]
    have hr := rebuild_background_queue_frame (s.deleteShift a n)
    exact ⟨hr.1, hr.2.1, hr.2.2.1, hr.2.2.2.2.1, hr.2.2.2.2.2.1, hr.2.2.2.2.2.2.1,
           hr.2.2.2.1⟩
  | false =>
    rw [if_neg (by simp)]
    exact ⟨rfl, rfl, rfl, rfl, rfl, rfl, rfl⟩

/-- Example state of the claims' edit-shift scenarios: line 7 cached. -/
def insState7 : HighlightingState :=
  (HighlightingState.new Language.Rust).cache_tokens 7 99 [TokenInfo.plain_text "abc" 0 3]

/-- Example state of the claims' edit-shift scenarios: lines 3, 5, 7 cached. -/
def delState357 : HighlightingState :=
  (((HighlightingState.new Language.Rust).cache_tokens 3 13
    [TokenInfo.plain_text "a" 0 1]).cache_tokens 5 15
    [TokenInfo.plain_text "b" 0 1]).cache_tokens 7 17
    [TokenInfo.plain_text "c" 0 1]

/-! ### Claim C2 — insert edit shift -/

/-- C2 (amended): for an insert of `n ≥ 1` lines at `start_line`, the token
cache, validity map and dirty set are rebuilt with keys `≥ start_line`
shifted up by `n` and keys `< start_line` kept; the insertion area
`[start_line, start_line + n)` (not `[start_line, start_line + n]`) is
marked dirty and holds no cache entries; the viewport is unchanged and the
queue is rebuilt exactly when a viewport is set.  An insert of 0 lines is a
no-op. -/
theorem handle_text_insert_spec (s : HighlightingState) (start_line n : Nat) (hn : 1 ≤ n) :
    s.handle_text_insert start_line 0 = s ∧
    (∀ k, start_line ≤ k →
      (s.handle_text_insert start_line n).token_cache (k + n) = s.token_cache k ∧
      (s.handle_text_insert start_line n).cache_validity (k + n) = s.cache_validity k ∧
      (s.handle_text_insert start_line n).dirty_lines (k + n) = s.dirty_lines k) ∧
    (∀ k, k < start_line →
      (s.handle_text_insert start_line n).token_cache k = s.token_cache k ∧
      (s.handle_text_insert start_line n).cache_validity k = s.cache_validity k ∧
      (s.handle_text_insert start_line n).dirty_lines k = s.dirty_lines k) ∧
    (∀ k, start_line ≤ k → k < start_line + n →
      (s.handle_text_insert start_line n).token_cache k = none ∧
      (s.handle_text_insert start_line n).cache_validity k = none ∧
      (s.handle_text_insert start_line n).dirty_lines k = true) ∧
    (s.handle_text_insert start_line n).viewport = s.viewport ∧
    (s.viewport = none →
      (s.handle_text_insert start_line n).background_queue = s.background_queue) ∧
    (s.viewport.isSome →
      s.handle_text_insert start_line n
        = (s.insertShift start_line n).rebuild_background_queue) := by
  have hne : n ≠ 0 := by omega
  have hf := handle_text_insert_frame s start_line n hne
  refine ⟨by rw [HighlightingState.handle_text_insert, if_pos rfl], ?_, ?_, ?_, hf.2.2.2.1,
          ?_, ?_⟩
  · intro k hk
    rw [hf.1, hf.2.1, hf.2.2.1]
    unfold HighlightingState.insertShift
    dsimp only
    rw [if_neg (by omega), if_pos (by omega), if_neg (by omega), if_pos (by omega),
        if_neg (by omega), if_pos (by omega)]
    have hkn : k + n - n = k := by omega
    rw [hkn]
    exact ⟨rfl, rfl, rfl⟩
  · intro k hk
    rw [hf.1, hf.2.1, hf.2.2.1]
    unfold HighlightingState.insertShift
    dsimp only
    rw [if_pos hk, if_pos hk, if_pos hk]
    exact ⟨rfl, rfl, rfl⟩
  · intro k hk1 hk2
    rw [hf.1, hf.2.1, hf.2.2.1]
    unfold HighlightingState.insertShift
    dsimp only
    rw [if_neg (by omega), if_neg (by omega), if_neg (by omega), if_neg (by omega),
        if_neg (by omega), if_neg (by omega)]
    exact ⟨rfl, rfl, rfl⟩
  · intro hvp
    unfold HighlightingState.handle_text_insert
    rw [if_neg hne]
    dsimp only
    rw [if_neg (by
      rw [show (s.insertShift start_line n).viewport = s.viewport from rfl, hvp]
      simp)]
    rfl
  · intro hvp
    unfold HighlightingState.handle_text_insert
    rw [if_neg hne]
    dsimp only
    rw [if_pos (show (s.insertShift start_line n).viewport.isSome = true from hvp)]

/-- Counterexample to C2 as stated: inserting 2 lines at line 3 into a
fresh state does not mark line `start_line + n = 5` dirty — the source
marks only `[start_line, start_line + n)`. -/
theorem handle_text_insert_cex :
    ((HighlightingState.new Language.Rust).handle_text_insert 3 2).is_line_dirty 5
      = false := rfl

/-- Witness for C2: the claim's own scenario — cache line 7, insert 2 lines
at 3; line 9 then carries the spans and hash originally cached for line 7,
and line 3 is dirty with no cache entry. -/
theorem handle_text_insert_spec_witness :
    (1 ≤ 2 ∧
      (insState7.handle_text_insert 3 2).token_cache 9
        = some [TokenInfo.plain_text "abc" 0 3]) ∧
    (insState7.handle_text_insert 3 2).cache_validity 9 = some 99 ∧
    (insState7.handle_text_insert 3 2).token_cache 3 = none ∧
    (insState7.handle_text_insert 3 2).dirty_lines 3 = true := by
  have h := handle_text_insert_spec insState7 3 2 (by omega)
  have h7 := h.2.1 7 (by omega)
  have h3 := h.2.2.2.1 3 (by omega) (by omega)
  exact ⟨⟨by omega, h7.1.trans rfl⟩, h7.2.1.trans rfl, h3.1, h3.2.2⟩

/-! ### Claim C3 — delete edit shift -/

/-- C3 (amended): for a delete of `n ≥ 1` lines at `start_line`, cache
entries with key in `[start_line, start_line + n)` are dropped, keys below
`start_line` are kept, keys `≥ start_line + n` are shifted down by `n`
(together: the new maps at key `k ≥ start_line` hold the old entries of key
`k + n`); the same transform applies to the validity map and (apart from
the extra mark) the dirty set; `start_line` is marked dirty; in-progress
entries inside the deleted range are dropped and the rest are kept
unshifted; the queue is rebuilt exactly when a viewport is set.  A delete
of 0 lines is a no-op (in particular it does not mark `start_line`
dirty). -/
theorem handle_text_delete_spec (s : HighlightingState) (start_line n : Nat) (hn : 1 ≤ n) :
    s.handle_text_delete start_line 0 = s ∧
    (∀ k, k < start_line →
      (s.handle_text_delete start_line n).token_cache k = s.token_cache k ∧
      (s.handle_text_delete start_line n).cache_validity k = s.cache_validity k ∧
      (s.handle_text_delete start_line n).dirty_lines k = s.dirty_lines k) ∧
    (∀ k, start_line ≤ k →
      (s.handle_text_delete start_line n).token_cache k = s.token_cache (k + n) ∧
      (s.handle_text_delete start_line n).cache_validity k = s.cache_validity (k + n)) ∧
    (∀ k, start_line < k →
      (s.handle_text_delete start_line n).dirty_lines k = s.dirty_lines (k + n)) ∧
    (s.handle_text_delete start_line n).dirty_lines start_line = true ∧
    (∀ k, (s.handle_text_delete start_line n).background_in_progress k
        = (s.background_in_progress k
            && (decide (k < start_line) || decide (start_line + n ≤ k)))) ∧
    (s.handle_text_delete start_line n).viewport = s.viewport ∧
    (s.viewport = none →
      (s.handle_text_delete start_line n).background_queue = s.background_queue) ∧
    (s.viewport.isSome →
      s.handle_text_delete start_line n
        = (s.deleteShift start_line n).rebuild_background_queue) := by
  have hne : n ≠ 0 := by omega
  have hf := handle_text_delete_frame s start_line n hne
  refine ⟨by rw [HighlightingState.handle_text_delete, if_pos rfl], ?_, ?_, ?_, ?_, ?_,
          hf.2.2.2.1, ?_, ?_⟩
  · intro k hk
    rw [hf.1, hf.2.1, hf.2.2.1]
    unfold HighlightingState.deleteShift
    dsimp only
    rw [if_pos hk, if_pos hk, if_neg (by omega), if_pos hk]
    exact ⟨rfl, rfl, rfl⟩
  · intro k hk
    rw [hf.1, hf.2.1]
    unfold HighlightingState.deleteShift
    dsimp only
    rw [if_neg (by omega), if_neg (by omega)]
    exact ⟨rfl, rfl⟩
  · intro k hk
    rw [hf.2.2.1]
    unfold HighlightingState.deleteShift
    dsimp only
    rw [if_neg (by omega), if_neg (by omega)]
  · rw [hf.2.2.1]
    unfold HighlightingState.deleteShift
    dsimp only
    rw [if_pos rfl]
  · intro k
    rw [hf.2.2.2.2.1]
    rfl
  · intro hvp
    unfold HighlightingState.handle_text_delete
    rw [if_neg hne]
    dsimp only
    rw [if_neg (by
      rw [show (s.deleteShift start_line n).viewport = s.viewport from rfl, hvp]
      simp)]
    rfl
  · intro hvp
    unfold HighlightingState.handle_text_delete
    rw [if_neg hne]
    dsimp only
    rw [if_pos (show (s.deleteShift start_line n).viewport.isSome = true from hvp)]

/-- Counterexample to C3 as stated: the claim requires `start_line` to be
marked dirty for every `n ≥ 0`, but a delete of 0 lines returns early and
marks nothing. -/
theorem handle_text_delete_cex :
    ((HighlightingState.new Language.Rust).handle_text_delete 4 0).is_line_dirty 4
      = false := rfl

/-- Witness for C3: the claim's own scenario — cache lines 3, 5, 7, delete
2 lines at 4; line 3 keeps its entry, line 5 now holds line 7's entry, and
line 4 is dirty. -/
theorem handle_text_delete_spec_witness :
    (1 ≤ 2 ∧
      (delState357.handle_text_delete 4 2).token_cache 3
        = some [TokenInfo.plain_text "a" 0 1]) ∧
    (delState357.handle_text_delete 4 2).token_cache 5
      = some [TokenInfo.plain_text "c" 0 1] ∧
    (delState357.handle_text_delete 4 2).dirty_lines 4 = true := by
  have h := handle_text_delete_spec delState357 4 2 (by omega)
  exact ⟨⟨by omega, (h.2.1 3 (by omega)).1.trans rfl⟩,
         (h.2.2.1 5 (by omega)).1.trans rfl, h.2.2.2.2.1⟩

/-! ### Claim C8 — language detection -/

/-- C8: `detect_language` returns the registered override for the exact
path string when one exists (and a freshly set override shadows the
extension rule); otherwise it is the lower-cased-extension table lookup
with `PlainText` fallback; the static table has at least 15 extensions;
and the four concrete detections of the claim hold. -/
theorem detect_language_spec :
    (∀ (d : LanguageDetector) (path : String) (l : Language),
        d.overrides.lookup path = some l → d.detect_language path = l) ∧
    (∀ (d : LanguageDetector) (path : String) (l : Language),
        (d.set_language_override path l).detect_language path = l) ∧
    (∀ (d : LanguageDetector) (path : String),
        d.overrides.lookup path = none →
          d.detect_language path =
            (match pathExtension path with
             | some ext => (extensionMap.lookup (lowerAscii ext)).getD Language.PlainText
             | none => Language.PlainText)) ∧
    15 ≤ extensionMap.length ∧
    LanguageDetector.new.detect_language "src/main.rs" = Language.Rust ∧
    LanguageDetector.new.detect_language "READ.ME" = Language.PlainText ∧
    LanguageDetector.new.detect_language "x.RS" = Language.Rust ∧
    LanguageDetector.new.detect_language "a.jsonc" = Language.Json := by
  refine ⟨?_, ?_, ?_, by decide, by decide, by decide, by decide, by decide⟩
  · intro d path l h
    unfold LanguageDetector.detect_language
    rw [h]
  · intro d path l
    unfold LanguageDetector.detect_language
    have : (d.set_language_override path l).overrides.lookup path = some l := by
      unfold LanguageDetector.set_language_override
      simp [List.lookup]
    rw [this]
  · intro d path h
    unfold LanguageDetector.detect_language
    rw [h]
    cases pathExtension path with
    | none => rfl
    | some ext =>
      dsimp only
      cases extensionMap.lookup (lowerAscii ext) with
      | none => rfl
      | some l => rfl

/-- Witness for C8: the override branch at a concrete detector. -/
theorem detect_language_spec_witness :
    (⟨[("special_file", Language.Python)]⟩ : LanguageDetector).detect_language
      "special_file" = Language.Python :=
  detect_language_spec.1 ⟨[("special_file", Language.Python)]⟩ "special_file"
    Language.Python rfl

/-! ### Claim C10 — background batch never touches metrics -/

theorem backgroundStep_metrics (hash : String → Nat)
    (tok : Language → String → Nat → Except String (List TokenInfo)) (durs : Nat → Nat)
    (svc : HighlightingService) (gl : Nat → Option String)
    (acc : Nat × HighlightingState) (ln : Nat) :
    (backgroundStep hash tok durs svc gl acc ln).2.metrics = acc.2.metrics := by
  rcases acc with ⟨c, st⟩
  unfold backgroundStep
  cases gl ln with
  | none => rfl
  | some content =>
    dsimp only
    split
    · split
      · cases tok st.language content ln with
        | error e => rfl
        | ok ts =>
          dsimp only
          split
          · rfl
          · rfl
      · rfl
    · rfl

theorem foldl_backgroundStep_metrics (hash : String → Nat)
    (tok : Language → String → Nat → Except String (List TokenInfo)) (durs : Nat → Nat)
    (svc : HighlightingService) (gl : Nat → Option String) :
    ∀ (batch : List Nat) (acc : Nat × HighlightingState),
      (batch.foldl (backgroundStep hash tok durs svc gl) acc).2.metrics = acc.2.metrics
  | [], _ => rfl
  | ln :: rest, acc => by
    rw [List.foldl_cons, foldl_backgroundStep_metrics hash tok durs svc gl rest _]
    exact backgroundStep_metrics hash tok durs svc gl acc ln

/-- C10: `highlight_background_batch` changes no metrics counter — the
document state's metrics record and the service (hence its global metrics)
are returned exactly as they were, for every state, content function,
tokenizer, hash and timing. -/
theorem background_batch_metrics_frame (hash : String → Nat)
    (tok : Language → String → Nat → Except String (List TokenInfo)) (durs : Nat → Nat)
    (svc : HighlightingService) (state : HighlightingState)
    (get_line_content : Nat → Option String) :
    (HighlightingService.highlight_background_batch hash tok durs svc state
        get_line_content).2.1.metrics = state.metrics ∧
    (HighlightingService.highlight_background_batch hash tok durs svc state
        get_line_content).2.2 = svc := by
  unfold HighlightingService.highlight_background_batch
  split
  · exact ⟨rfl, rfl⟩
  · constructor
    · show (HighlightingState.get_background_batch state |>.1.foldl
        (backgroundStep hash tok durs svc get_line_content) (0, _)).2.metrics
          = state.metrics
      rw [foldl_backgroundStep_metrics]
      rfl
    · rfl

/-! ### Claim C4 — span concatenation and contiguity -/

/-- Concatenation of the texts of a backend token stream. -/
def concatTokText : List TokOpt → String
  | [] => ""
  | t :: ts => t.text ++ concatTokText ts

/-- Concatenation of the texts of a span list. -/
def concatSpanText : List TokenInfo → String
  | [] => ""
  | t :: ts => t.text ++ concatSpanText ts

theorem collectTokens_concat (off : Nat) (ts : List TokOpt) :
    concatSpanText (collectTokens off ts) = concatTokText ts := by
  induction ts generalizing off with
  | nil => rfl
  | cons t rest ih =>
    cases t with
    | tokSome text kind =>
      show text ++ concatSpanText (collectTokens (off + byteLen text) rest) = _
      rw [ih]
      rfl
    | tokNone text =>
      show text ++ concatSpanText (collectTokens (off + byteLen text) rest) = _
      rw [ih]
      rfl

theorem collectTokens_head (off : Nat) (ts : List TokOpt) :
    ∀ b ∈ (collectTokens off ts).head?, b.start_offset = off := by
  cases ts with
  | nil => intro b hb; simp [collectTokens] at hb
  | cons t rest =>
    cases t with
    | tokSome text kind =>
      intro b hb
      have hb2 : some (TokenInfo.highlighted text kind off (off + byteLen text))
          = some b := hb
      rw [← Option.some.inj hb2]
      rfl
    | tokNone text =>
      intro b hb
      have hb2 : some (TokenInfo.plain_text text off (off + byteLen text))
          = some b := hb
      rw [← Option.some.inj hb2]
      rfl

theorem collectTokens_chain (off : Nat) (ts : List TokOpt) :
    List.Chain' (fun a b : TokenInfo => a.end_offset = b.start_offset)
      (collectTokens off ts) := by
  induction ts generalizing off with
  | nil => simp [collectTokens]
  | cons t rest ih =>
    have hh := collectTokens_head
    cases t with
    | tokSome text kind =>
      show List.Chain' _ (TokenInfo.highlighted text kind off (off + byteLen text)
        :: collectTokens (off + byteLen text) rest)
      rw [List.chain'_cons']
      refine ⟨?_, ih (off + byteLen text)⟩
      intro b hb
      exact (hh (off + byteLen text) rest b hb).symm
    | tokNone text =>
      show List.Chain' _ (TokenInfo.plain_text text off (off + byteLen text)
        :: collectTokens (off + byteLen text) rest)
      rw [List.chain'_cons']
      refine ⟨?_, ih (off + byteLen text)⟩
      intro b hb
      exact (hh (off + byteLen text) rest b hb).symm

theorem collectTokens_last (off : Nat) (ts : List TokOpt) :
    ∀ b ∈ (collectTokens off ts).getLast?,
      b.end_offset = off + byteLen (concatTokText ts) := by
  induction ts generalizing off with
  | nil => intro b hb; simp [collectTokens] at hb
  | cons t rest ih =>
    intro b hb
    cases rest with
    | nil =>
      cases t with
      | tokSome text kind =>
        have hb2 : some (TokenInfo.highlighted text kind off (off + byteLen text))
            = some b := hb
        rw [← Option.some.inj hb2]
        show off + byteLen text = off + byteLen (text ++ "")
        rw [byteLen_append, byteLen_empty]
        omega
      | tokNone text =>
        have hb2 : some (TokenInfo.plain_text text off (off + byteLen text))
            = some b := hb
        rw [← Option.some.inj hb2]
        show off + byteLen text = off + byteLen (text ++ "")
        rw [byteLen_append, byteLen_empty]
        omega
    | cons r rs =>
      have hskip : (collectTokens off (t :: r :: rs)).getLast?
          = (collectTokens (off + byteLen t.text) (r :: rs)).getLast? := by
        cases t <;> cases r <;>
          simp only [collectTokens, TokOpt.text, List.getLast?_cons_cons]
      rw [hskip] at hb
      have hend := ih (off + byteLen t.text) b hb
      rw [hend]
      have hcat : concatTokText (t :: r :: rs) = t.text ++ concatTokText (r :: rs) := by
        cases t <;> rfl
      rw [hcat, byteLen_append]
      omega

theorem collectTokens_width (off : Nat) (ts : List TokOpt) :
    ∀ b ∈ collectTokens off ts, b.end_offset = b.start_offset + byteLen b.text := by
  induction ts generalizing off with
  | nil => intro b hb; simp [collectTokens] at hb
  | cons t rest ih =>
    intro b hb
    cases t with
    | tokSome text kind =>
      rcases (List.mem_cons).1 hb with h | h
      · rw [h]; rfl
      · exact ih _ b h
    | tokNone text =>
      rcases (List.mem_cons).1 hb with h | h
      · rw [h]; rfl
      · exact ih _ b h

theorem isEmpty_eq_nil {s : String} (h : s.isEmpty = true) : s = "" := by
  cases s with
  | mk data =>
    cases data with
    | nil => rfl
    | cons c cs =>
      exfalso
      simp only [String.isEmpty, String.endPos, beq_iff_eq] at h
      have h2 : String.utf8ByteSize ⟨c :: cs⟩ = 0 := congrArg String.Pos.byteIdx h
      have h3 : String.utf8ByteSize ⟨c :: cs⟩
          = String.utf8ByteSize.go cs + c.utf8Size := rfl
      have h4 := c.utf8Size_pos
      omega

/-- C4: every span list produced by the tokenizer adapter — `highlight_line`
on a line or `highlight_document` on a document line — reproduces the line
byte-for-byte when concatenated and has contiguous offsets: the first span
starts at 0, each span ends where the next starts (and spans exactly its
text's byte length), and the last span ends at the line's byte length.  The
hypothesis is the backend's black-box contract: the token texts it yields
for the line concatenate to the line.  (Cached span lists are exactly
adapter outputs: the service writes only `tokens` returned by the adapter.) -/
theorem adapter_span_invariant
    (backend : String → List TokOpt) (backendD : Nat → String → List TokOpt)
    (line document : String) (ln : Nat) :
    (concatTokText (backend line) = line →
      ∀ spans, SyntaxHighlighter.highlight_line backend line ln = Except.ok spans →
        concatSpanText spans = line ∧
        List.Chain' (fun a b : TokenInfo => a.end_offset = b.start_offset) spans ∧
        (∀ t ∈ spans.head?, t.start_offset = 0) ∧
        (∀ t ∈ spans.getLast?, t.end_offset = byteLen line) ∧
        (∀ t ∈ spans, t.end_offset = t.start_offset + byteLen t.text)) ∧
    (∀ lineD, (rustLines document).get? ln = some lineD →
      concatTokText (backendD ln lineD) = lineD →
      ∀ spans, SyntaxHighlighter.highlight_document backendD document ln
          = Except.ok spans →
        concatSpanText spans = lineD ∧
        List.Chain' (fun a b : TokenInfo => a.end_offset = b.start_offset) spans ∧
        (∀ t ∈ spans.head?, t.start_offset = 0) ∧
        (∀ t ∈ spans.getLast?, t.end_offset = byteLen lineD) ∧
        (∀ t ∈ spans, t.end_offset = t.start_offset + byteLen t.text)) ∧
    ((rustLines document).get? ln = none →
      SyntaxHighlighter.highlight_document backendD document ln = Except.ok []) := by
  refine ⟨?_, ?_, ?_⟩
  · intro hb spans hs
    unfold SyntaxHighlighter.highlight_line at hs
    by_cases he : line.isEmpty = true
    · rw [if_pos he] at hs
      have hsp : spans = [] := (Except.ok.inj hs).symm
      have hl : line = "" := isEmpty_eq_nil he
      subst hsp
      subst hl
      refine ⟨rfl, by simp, by simp, by simp, by simp⟩
    · rw [if_neg he] at hs
      have hsp : spans = collectTokens 0 (backend line) := (Except.ok.inj hs).symm
      subst hsp
      refine ⟨(collectTokens_concat 0 (backend line)).trans hb,
        collectTokens_chain 0 (backend line), collectTokens_head 0 (backend line),
        ?_, collectTokens_width 0 (backend line)⟩
      intro t ht
      have := collectTokens_last 0 (backend line) t ht
      rw [this, hb]
      omega
  · intro lineD hget hb spans hs
    unfold SyntaxHighlighter.highlight_document at hs
    rw [hget] at hs
    have hsp : spans = collectTokens 0 (backendD ln lineD) := (Except.ok.inj hs).symm
    subst hsp
    refine ⟨(collectTokens_concat 0 (backendD ln lineD)).trans hb,
      collectTokens_chain 0 (backendD ln lineD), collectTokens_head 0 (backendD ln lineD),
      ?_, collectTokens_width 0 (backendD ln lineD)⟩
    intro t ht
    have := collectTokens_last 0 (backendD ln lineD) t ht
    rw [this, hb]
    omega
  · intro hget
    unfold SyntaxHighlighter.highlight_document
    rw [hget]

/-- Witness for C4: a concrete backend token stream for `"fn main()"`
satisfies the concatenation conclusion. -/
theorem adapter_span_invariant_witness :
    concatSpanText (collectTokens 0
      [TokOpt.tokSome "fn" "keyword", TokOpt.tokNone " main()"]) = "fn main()" :=
  ((adapter_span_invariant
      (fun _ => [TokOpt.tokSome "fn" "keyword", TokOpt.tokNone " main()"])
      (fun _ _ => []) "fn main()" "" 0).1 rfl _ rfl).1

/-! ### Claim C6 — tokenize timeout discards spans and updates nothing -/

/-- C6: when the measured tokenize duration exceeds `line_timeout` (default
50 ms), the service's `highlight_line` discards the tokenizer's spans and
returns a single plain-text span over the whole line, writes nothing to the
cache, and leaves every line-time metric (total time, lines highlighted,
tokens, average, max) of both the document state and the service-global
metrics unchanged; only the miss counter (incremented before tokenizing)
moves. -/
theorem highlight_line_timeout_spec (hash : String → Nat)
    (tok : Language → String → Nat → Except String (List TokenInfo)) (dur : Nat)
    (svc : HighlightingService) (state : HighlightingState)
    (line : String) (ln : Nat) (ts : List TokenInfo)
    (hen : state.enabled = true) (hsen : svc.enabled = true)
    (hlen : ¬ byteLen line > svc.max_line_length)
    (hnc : state.has_cached_tokens ln (hash line) = false)
    (htok : tok state.language line ln = Except.ok ts)
    (hdur : dur > svc.line_timeout) :
    HighlightingService.new.line_timeout = 50 ∧
    HighlightingService.highlight_line hash tok dur svc state line ln
      = (Except.ok [TokenInfo.plain_text line 0 (byteLen line)],
         { state with metrics := state.metrics.record_cache_miss }, svc) ∧
    (HighlightingService.highlight_line hash tok dur svc state line ln).2.1.token_cache
      = state.token_cache ∧
    (HighlightingService.highlight_line hash tok dur svc state line ln).2.1.cache_validity
      = state.cache_validity ∧
    (HighlightingService.highlight_line hash tok dur svc state line
        ln).2.1.metrics.total_time = state.metrics.total_time ∧
    (HighlightingService.highlight_line hash tok dur svc state line
        ln).2.1.metrics.lines_highlighted = state.metrics.lines_highlighted ∧
    (HighlightingService.highlight_line hash tok dur svc state line
        ln).2.1.metrics.tokens_generated = state.metrics.tokens_generated ∧
    (HighlightingService.highlight_line hash tok dur svc state line
        ln).2.1.metrics.avg_time_per_line = state.metrics.avg_time_per_line ∧
    (HighlightingService.highlight_line hash tok dur svc state line
        ln).2.1.metrics.max_line_time = state.metrics.max_line_time ∧
    (HighlightingService.highlight_line hash tok dur svc state line ln).2.2 = svc := by
  have key : HighlightingService.highlight_line hash tok dur svc state line ln
      = (Except.ok [TokenInfo.plain_text line 0 (byteLen line)],
         { state with metrics := state.metrics.record_cache_miss }, svc) := by
    unfold HighlightingService.highlight_line
    rw [if_neg (by rw [hen, hsen]; simp), if_neg hlen]
    dsimp only
    rw [if_neg (by rw [hnc]; simp), htok]
    dsimp only
    rw [if_pos hdur]
  refine ⟨rfl, key, ?_, ?_, ?_, ?_, ?_, ?_, ?_, ?_⟩ <;> rw [key] <;> rfl

/-- Witness for C6 at a concrete over-deadline call. -/
theorem highlight_line_timeout_spec_witness :
    (HighlightingService.highlight_line (fun _ => 0) (fun _ _ _ => Except.ok []) 51
      HighlightingService.new (HighlightingState.new Language.Rust) "x" 0).1
      = Except.ok [TokenInfo.plain_text "x" 0 (byteLen "x")] := by
  have h := highlight_line_timeout_spec (fun _ => 0) (fun _ _ _ => Except.ok []) 51
    HighlightingService.new (HighlightingState.new Language.Rust) "x" 0 []
    rfl rfl (by decide) rfl rfl (by decide)
  rw [h.2.1]

/-! ### Claim C7 — max-line-length guard -/

/-- C7: a line strictly longer than `max_line_length` (default 10000 bytes)
makes `highlight_line` return a single plain-text span over the whole line
with the state and service completely untouched (no cache write, no
metrics, tokenizer bypassed); a line of exactly `max_line_length` bytes
passes the guard and is tokenized normally, and on a successful in-deadline
tokenize its spans are cached. -/
theorem highlight_line_length_guard (hash : String → Nat)
    (tok : Language → String → Nat → Except String (List TokenInfo)) (dur : Nat)
    (svc : HighlightingService) (state : HighlightingState)
    (line : String) (ln : Nat) (ts : List TokenInfo) :
    HighlightingService.new.max_line_length = 10000 ∧
    (byteLen line > svc.max_line_length →
      HighlightingService.highlight_line hash tok dur svc state line ln
        = (Except.ok [TokenInfo.plain_text line 0 (byteLen line)], state, svc)) ∧
    (state.enabled = true → svc.enabled = true →
      byteLen line = svc.max_line_length →
      state.has_cached_tokens ln (hash line) = false →
      tok state.language line ln = Except.ok ts →
      ¬ dur > svc.line_timeout →
      (HighlightingService.highlight_line hash tok dur svc state line ln).1
          = Except.ok ts ∧
      (HighlightingService.highlight_line hash tok dur svc state line ln).2.1.token_cache
          ln = some ts ∧
      (HighlightingService.highlight_line hash tok dur svc state line
          ln).2.1.cache_validity ln = some (hash line)) := by
  refine ⟨rfl, ?_, ?_⟩
  · intro hlen
    unfold HighlightingService.highlight_line
    by_cases hc : (!state.enabled || !svc.enabled) = true
    · rw [if_pos hc]
    · rw [if_neg hc, if_pos hlen]
  · intro hen hsen hlen hnc htok hdur
    have key : HighlightingService.highlight_line hash tok dur svc state line ln
        = (Except.ok ts,
           ({ state with metrics :=
                (state.metrics.record_cache_miss).record_line_highlight dur ts.length }
            : HighlightingState).cache_tokens ln (hash line) ts,
           { svc with global_metrics :=
                svc.global_metrics.record_line_highlight dur ts.length }) := by
      unfold HighlightingService.highlight_line
      rw [if_neg (by rw [hen, hsen]; simp), if_neg (by omega)]
      dsimp only
      rw [if_neg (by rw [hnc]; simp), htok]
      dsimp only
      rw [if_neg hdur]
    refine ⟨?_, ?_, ?_⟩
    · rw [key]
    · rw [key]
      show (if ln = ln then some ts else _) = some ts
      rw [if_pos rfl]
    · rw [key]
      show (if ln = ln then some (hash line) else _) = some (hash line)
      rw [if_pos rfl]

/-- Witness for C7: with `max_line_length` set to 2 the 3-byte line `"abc"`
is rejected without a cache write; with `max_line_length` set to 3 the same
line is tokenized and cached. -/
theorem highlight_line_length_guard_witness :
    (HighlightingService.highlight_line (fun _ => 0) (fun _ _ _ => Except.ok []) 0
      (HighlightingService.new.set_max_line_length 2) (HighlightingState.new Language.Rust)
      "abc" 0).2.1.token_cache 0 = none ∧
    (HighlightingService.highlight_line (fun _ => 0) (fun _ _ _ => Except.ok []) 0
      (HighlightingService.new.set_max_line_length 3) (HighlightingState.new Language.Rust)
      "abc" 0).2.1.token_cache 0 = some [] := by
  have h1 := (highlight_line_length_guard (fun _ => 0) (fun _ _ _ => Except.ok []) 0
    (HighlightingService.new.set_max_line_length 2) (HighlightingState.new Language.Rust)
    "abc" 0 []).2.1 (by decide)
  have h2 := (highlight_line_length_guard (fun _ => 0) (fun _ _ _ => Except.ok []) 0
    (HighlightingService.new.set_max_line_length 3) (HighlightingState.new Language.Rust)
    "abc" 0 []).2.2 rfl rfl (by decide) rfl rfl (by decide)
  exact ⟨by rw [h1]; rfl, h2.2.1⟩

/-! ### Claim C9 — viewport hysteresis and queue rebuild -/

/-- Distance of a line from the viewport `(start_line, end_line)`, exactly
as `rebuild_background_queue` computes it per region: `start_line - l`
above the viewport, `l - end_line + 1` at or below it. -/
def viewportDistance (start_line end_line l : Nat) : Nat :=
  if l < start_line then start_line - l else l - end_line + 1

theorem rebuild_queue_mem (s : HighlightingState) (a b : Nat)
    (hvp : s.viewport = some (a, b)) :
    ∀ l ∈ s.rebuild_background_queue.background_queue,
      s.token_cache l = none ∧ s.background_in_progress l = false ∧
      ((a - s.background_lookahead ≤ l ∧ l < a) ∨
       (b ≤ l ∧ l < b + s.background_lookahead)) := by
  intro l hl
  unfold HighlightingState.rebuild_background_queue at hl
  rw [hvp] at hl
  dsimp only at hl
  rcases List.mem_map.1 hl with ⟨p, hp, hpl⟩
  rw [List.Perm.mem_iff (List.mergeSort_perm _ _)] at hp
  have hfil : ∀ (l0 : Nat),
      (!s.has_valid_cache l0 && !s.background_in_progress l0) = true →
      s.token_cache l0 = none ∧ s.background_in_progress l0 = false := by
    intro l0 h
    rcases Bool.and_eq_true_iff.1 h with ⟨h1, h2⟩
    constructor
    · cases ho : s.token_cache l0 with
      | none => rfl
      | some v =>
        exfalso
        have : s.has_valid_cache l0 = true := by
          unfold HighlightingState.has_valid_cache
          rw [ho]
          rfl
        rw [this] at h1
        exact absurd h1 (by simp)
    · cases hip : s.background_in_progress l0 with
      | false => rfl
      | true => rw [hip] at h2; exact absurd h2 (by simp)
  rcases List.mem_append.1 hp with hup | hdown
  · rcases List.mem_map.1 hup with ⟨l0, hl0, hpe⟩
    rcases List.mem_filter.1 hl0 with ⟨hr, hpred⟩
    have hrange := List.mem_range'_1.1 hr
    have hl0l : l0 = l := by rw [← hpl, ← hpe]
    subst hl0l
    refine ⟨(hfil l0 hpred).1, (hfil l0 hpred).2, Or.inl ⟨hrange.1, ?_⟩⟩
    have hsub : a - s.background_lookahead + (a - (a - s.background_lookahead)) = a := by
      omega
    omega
  · rcases List.mem_map.1 hdown with ⟨l0, hl0, hpe⟩
    rcases List.mem_filter.1 hl0 with ⟨hr, hpred⟩
    have hrange := List.mem_range'_1.1 hr
    have hl0l : l0 = l := by rw [← hpl, ← hpe]
    subst hl0l
    exact ⟨(hfil l0 hpred).1, (hfil l0 hpred).2, Or.inr ⟨hrange.1, hrange.2⟩⟩

theorem rebuild_queue_complete (s : HighlightingState) (a b : Nat)
    (hvp : s.viewport = some (a, b)) :
    ∀ l, ((a - s.background_lookahead ≤ l ∧ l < a) ∨
          (b ≤ l ∧ l < b + s.background_lookahead)) →
      s.token_cache l = none → s.background_in_progress l = false →
      l ∈ s.rebuild_background_queue.background_queue := by
  intro l hreg hcache hip
  unfold HighlightingState.rebuild_background_queue
  rw [hvp]
  dsimp only
  apply List.mem_map.2
  have hpred : (!s.has_valid_cache l && !s.background_in_progress l) = true := by
    unfold HighlightingState.has_valid_cache
    rw [hcache, hip]
    rfl
  rcases hreg with ⟨h1, h2⟩ | ⟨h1, h2⟩
  · refine ⟨(a - l, l), ?_, rfl⟩
    rw [List.Perm.mem_iff (List.mergeSort_perm _ _)]
    apply List.mem_append.2 (Or.inl _)
    apply List.mem_map.2
    refine ⟨l, List.mem_filter.2 ⟨List.mem_range'_1.2 ⟨h1, ?_⟩, hpred⟩, rfl⟩
    omega
  · refine ⟨(l - b + 1, l), ?_, rfl⟩
    rw [List.Perm.mem_iff (List.mergeSort_perm _ _)]
    apply List.mem_append.2 (Or.inr _)
    apply List.mem_map.2
    exact ⟨l, List.mem_filter.2 ⟨List.mem_range'_1.2 ⟨h1, h2⟩, hpred⟩, rfl⟩

theorem rebuild_queue_sorted (s : HighlightingState) (a b : Nat)
    (hvp : s.viewport = some (a, b)) (hab : a ≤ b) :
    s.rebuild_background_queue.background_queue.Pairwise
      (fun x y => viewportDistance a b x ≤ viewportDistance a b y) := by
  unfold HighlightingState.rebuild_background_queue
  rw [hvp]
  dsimp only
  rw [List.pairwise_map]
  have hkey : ∀ p ∈ ((List.range' (a - s.background_lookahead)
        (a - (a - s.background_lookahead))).filter
        (fun l => !s.has_valid_cache l && !s.background_in_progress l)).map
        (fun l => (a - l, l)) ++
      ((List.range' b s.background_lookahead).filter
        (fun l => !s.has_valid_cache l && !s.background_in_progress l)).map
        (fun l => (l - b + 1, l)),
      p.1 = viewportDistance a b p.2 := by
    intro p hp
    rcases List.mem_append.1 hp with hup | hdown
    · rcases List.mem_map.1 hup with ⟨l0, hl0, hpe⟩
      rcases List.mem_filter.1 hl0 with ⟨hr, _⟩
      have hrange := List.mem_range'_1.1 hr
      rw [← hpe]
      show a - l0 = viewportDistance a b l0
      unfold viewportDistance
      rw [if_pos (by omega)]
    · rcases List.mem_map.1 hdown with ⟨l0, hl0, hpe⟩
      rcases List.mem_filter.1 hl0 with ⟨hr, _⟩
      have hrange := List.mem_range'_1.1 hr
      rw [← hpe]
      show l0 - b + 1 = viewportDistance a b l0
      unfold viewportDistance
      rw [if_neg (by omega)]
  have hsorted := @List.sorted_mergeSort (Nat × Nat)
    (fun p q => decide (p.1 ≤ q.1))
    (fun x y z hxy hyz => by
      simp only [decide_eq_true_eq] at hxy hyz ⊢
      omega)
    (fun x y => by
      simp only [Bool.or_eq_true, decide_eq_true_eq]
      omega)
    (((List.range' (a - s.background_lookahead)
        (a - (a - s.background_lookahead))).filter
        (fun l => !s.has_valid_cache l && !s.background_in_progress l)).map
        (fun l => (a - l, l)) ++
      ((List.range' b s.background_lookahead).filter
        (fun l => !s.has_valid_cache l && !s.background_in_progress l)).map
        (fun l => (l - b + 1, l)))
  refine List.Pairwise.imp_of_mem ?_ hsorted
  intro p q hp hq hpq
  have hp2 := (List.Perm.mem_iff (List.mergeSort_perm _ _)).1 hp
  have hq2 := (List.Perm.mem_iff (List.mergeSort_perm _ _)).1 hq
  have := hkey p hp2
  have := hkey q hq2
  simp only [decide_eq_true_eq] at hpq
  omega

/-- A second `update_viewport` with the same endpoints is always absorbed:
once the viewport equals `(a, b)` the hysteresis branch fires. -/
theorem update_viewport_self (s : HighlightingState) (a b : Nat)
    (h : s.viewport = some (a, b)) : s.update_viewport a b = s := by
  unfold HighlightingState.update_viewport
  rw [h]
  dsimp only
  rw [if_pos (by rw [Nat.dist_self, Nat.dist_self]; omega)]

theorem update_viewport_cases (s : HighlightingState) (a b : Nat) :
    (s.update_viewport a b).viewport = some (a, b) ∨ s.update_viewport a b = s := by
  unfold HighlightingState.update_viewport
  cases hv : s.viewport with
  | none =>
    left
    exact (rebuild_background_queue_frame _).2.2.2.2.1.trans rfl
  | some p =>
    cases p with
    | mk os oe =>
      dsimp only
      split
      · right; rfl
      · left
        exact (rebuild_background_queue_frame _).2.2.2.2.1.trans rfl

/-- C9: with a viewport already set, `update_viewport` is a complete no-op
when both endpoints move by fewer than 5 lines; when either endpoint moves
by 5 or more the viewport is overwritten and the queue rebuilt, holding
exactly the lines within `lookahead` of the new viewport that have no
cache entry and are not in progress, in ascending viewport distance (for a
well-formed viewport `start ≤ end`); and `update_viewport` twice with the
same arguments equals calling it once. -/
theorem update_viewport_spec :
    (∀ (s : HighlightingState) (os oe a b : Nat),
      s.viewport = some (os, oe) → Nat.dist a os < 5 → Nat.dist b oe < 5 →
      s.update_viewport a b = s) ∧
    (∀ (s : HighlightingState) (os oe a b : Nat),
      s.viewport = some (os, oe) → (5 ≤ Nat.dist a os ∨ 5 ≤ Nat.dist b oe) →
      (s.update_viewport a b).viewport = some (a, b) ∧
      (∀ l ∈ (s.update_viewport a b).background_queue,
        s.token_cache l = none ∧ s.background_in_progress l = false ∧
        ((a - s.background_lookahead ≤ l ∧ l < a) ∨
         (b ≤ l ∧ l < b + s.background_lookahead))) ∧
      (∀ l, ((a - s.background_lookahead ≤ l ∧ l < a) ∨
             (b ≤ l ∧ l < b + s.background_lookahead)) →
        s.token_cache l = none → s.background_in_progress l = false →
        l ∈ (s.update_viewport a b).background_queue) ∧
      (a ≤ b → (s.update_viewport a b).background_queue.Pairwise
        (fun x y => viewportDistance a b x ≤ viewportDistance a b y))) ∧
    (∀ (s : HighlightingState) (a b : Nat),
      (s.update_viewport a b).update_viewport a b = s.update_viewport a b) := by
  refine ⟨?_, ?_, ?_⟩
  · intro s os oe a b hvp h1 h2
    unfold HighlightingState.update_viewport
    rw [hvp]
    dsimp only
    rw [if_pos ⟨h1, h2⟩]
  · intro s os oe a b hvp hmove
    have hrw : s.update_viewport a b
        = HighlightingState.rebuild_background_queue
            { s with viewport := some (a, b) } := by
      unfold HighlightingState.update_viewport
      rw [hvp]
      dsimp only
      rw [if_neg (by omega)]
    rw [hrw]
    refine ⟨(rebuild_background_queue_frame _).2.2.2.2.1.trans rfl, ?_, ?_, ?_⟩
    · exact rebuild_queue_mem ({ s with viewport := some (a, b) }) a b rfl
    · exact rebuild_queue_complete ({ s with viewport := some (a, b) }) a b rfl
    · intro hab
      exact rebuild_queue_sorted ({ s with viewport := some (a, b) }) a b rfl hab
  · intro s a b
    rcases update_viewport_cases s a b with h | h
    · exact update_viewport_self _ a b h
    · rw [h]
      exact h

/-- Witness for C9: a state with viewport `(100, 120)` absorbs the move to
`(103, 123)` (both endpoints move by 3 < 5), and re-applying the same
viewport is idempotent. -/
theorem update_viewport_spec_witness :
    (((HighlightingState.new Language.Rust).update_viewport 100 120).update_viewport
        103 123)
      = ((HighlightingState.new Language.Rust).update_viewport 100 120) := by
  have hvp : ((HighlightingState.new Language.Rust).update_viewport 100 120).viewport
      = some (100, 120) := rfl
  exact update_viewport_spec.1 _ 100 120 103 123 hvp (by decide) (by decide)

/-! ### Claim C5 — cache idempotence of the service highlight_line -/

theorem highlight_line_hit (hash : String → Nat)
    (tok : Language → String → Nat → Except String (List TokenInfo)) (dur : Nat)
    (svc : HighlightingService) (state : HighlightingState) (line : String) (ln : Nat)
    (hen : state.enabled = true) (hsen : svc.enabled = true)
    (hlen : ¬ byteLen line > svc.max_line_length)
    (hcc : state.has_cached_tokens ln (hash line) = true) :
    HighlightingService.highlight_line hash tok dur svc state line ln
      = (Except.ok ((state.get_cached_tokens ln).getD []),
         { state with metrics := state.metrics.record_cache_hit }, svc) := by
  unfold HighlightingService.highlight_line
  rw [if_neg (by rw [hen, hsen]; simp), if_neg hlen]
  dsimp only
  rw [if_pos hcc]
  rfl

theorem highlight_line_miss_ok (hash : String → Nat)
    (tok : Language → String → Nat → Except String (List TokenInfo)) (dur : Nat)
    (svc : HighlightingService) (state : HighlightingState) (line : String) (ln : Nat)
    (ts : List TokenInfo)
    (hen : state.enabled = true) (hsen : svc.enabled = true)
    (hlen : ¬ byteLen line > svc.max_line_length)
    (hnc : state.has_cached_tokens ln (hash line) = false)
    (htok : tok state.language line ln = Except.ok ts)
    (hdur : ¬ dur > svc.line_timeout) :
    HighlightingService.highlight_line hash tok dur svc state line ln
      = (Except.ok ts,
         HighlightingState.cache_tokens
           { state with metrics :=
               (state.metrics.record_cache_miss).record_line_highlight dur ts.length }
           ln (hash line) ts,
         { svc with global_metrics :=
             svc.global_metrics.record_line_highlight dur ts.length }) := by
  unfold HighlightingService.highlight_line
  rw [if_neg (by rw [hen, hsen]; simp), if_neg hlen]
  dsimp only
  rw [if_neg (by rw [hnc]; simp), htok]
  dsimp only
  rw [if_neg hdur]

theorem has_cached_tokens_cache_tokens_self (s : HighlightingState) (ln h : Nat)
    (ts : List TokenInfo) :
    (s.cache_tokens ln h ts).has_cached_tokens ln h = true := by
  unfold HighlightingState.has_cached_tokens HighlightingState.cache_tokens
  dsimp only
  rw [if_pos rfl, if_pos rfl]
  simp

theorem has_cached_tokens_cache_tokens_ne (s : HighlightingState) (ln h1 h2 : Nat)
    (ts : List TokenInfo) (hne : h1 ≠ h2) :
    (s.cache_tokens ln h1 ts).has_cached_tokens ln h2 = false := by
  unfold HighlightingState.has_cached_tokens HighlightingState.cache_tokens
  dsimp only
  rw [if_pos rfl]
  have hb : ((some h1 : Option Nat) == some h2) = false := by
    rw [beq_eq_false_iff_ne]
    intro hcontra
    exact hne (Option.some.inj hcontra)
  rw [hb]
  rfl

theorem record_line_highlight_counters (m : HighlightingMetrics) (d c : Nat) :
    (m.record_line_highlight d c).cache_hits = m.cache_hits ∧
    (m.record_line_highlight d c).cache_misses = m.cache_misses := by
  unfold HighlightingMetrics.record_line_highlight
  dsimp only
  constructor <;> (split <;> split <;> rfl)

/-- The claim's three-call scenario, written with the service API: create a
state for `"t.rs"`, highlight `"fn main() {"` twice, then `"let x = 5;"`,
threading the returned state and service through; yields the final call's
result triple. -/
def exampleRun (hash : String → Nat)
    (tok : Language → String → Nat → Except String (List TokenInfo))
    (d1 d2 d3 : Nat) :
    Except String (List TokenInfo) × HighlightingState × HighlightingService :=
  let svc0 := HighlightingService.new
  let st0 := svc0.create_highlighting_state "t.rs"
  let c1 := HighlightingService.highlight_line hash tok d1 svc0 st0 "fn main() \x7b" 0
  let c2 := HighlightingService.highlight_line hash tok d2 c1.2.2 c1.2.1 "fn main() \x7b" 0
  HighlightingService.highlight_line hash tok d3 c2.2.2 c2.2.1 "let x = 5;" 0

/-- C5 (amended): for an enabled state and service and a line within
`max_line_length` whose tokenize call succeeds within `line_timeout`,
calling `highlight_line` twice with the same content and line number yields
identical span lists, and the second call increments the cache-hit counter
by exactly 1 while leaving cache misses unchanged.  The claim's universal
form fails for over-long lines (see the counterexample).  The claim's
concrete scenario holds: on a state created for `"t.rs"`, highlighting
`"fn main() {"` twice and then `"let x = 5;"` (tokenizer succeeding within
the deadline on both misses, the two lines hashing differently) produces
metrics misses = 2, hits = 1. -/
theorem highlight_line_cache_idempotent :
    (∀ (hash : String → Nat)
       (tok : Language → String → Nat → Except String (List TokenInfo))
       (d1 d2 : Nat) (svc : HighlightingService) (state : HighlightingState)
       (line : String) (ln : Nat) (ts : List TokenInfo),
      state.enabled = true → svc.enabled = true →
      ¬ byteLen line > svc.max_line_length →
      tok state.language line ln = Except.ok ts →
      ¬ d1 > svc.line_timeout →
      (HighlightingService.highlight_line hash tok d2
          (HighlightingService.highlight_line hash tok d1 svc state line ln).2.2
          (HighlightingService.highlight_line hash tok d1 svc state line ln).2.1
          line ln).1
        = (HighlightingService.highlight_line hash tok d1 svc state line ln).1 ∧
      (HighlightingService.highlight_line hash tok d2
          (HighlightingService.highlight_line hash tok d1 svc state line ln).2.2
          (HighlightingService.highlight_line hash tok d1 svc state line ln).2.1
          line ln).2.1.metrics.cache_hits
        = (HighlightingService.highlight_line hash tok d1 svc state line
            ln).2.1.metrics.cache_hits + 1 ∧
      (HighlightingService.highlight_line hash tok d2
          (HighlightingService.highlight_line hash tok d1 svc state line ln).2.2
          (HighlightingService.highlight_line hash tok d1 svc state line ln).2.1
          line ln).2.1.metrics.cache_misses
        = (HighlightingService.highlight_line hash tok d1 svc state line
            ln).2.1.metrics.cache_misses) ∧
    (∀ (hash : String → Nat)
       (tok : Language → String → Nat → Except String (List TokenInfo))
       (d1 d2 d3 : Nat) (ts1 ts3 : List TokenInfo),
      hash "fn main() \x7b" ≠ hash "let x = 5;" →
      tok Language.Rust "fn main() \x7b" 0 = Except.ok ts1 →
      tok Language.Rust "let x = 5;" 0 = Except.ok ts3 →
      ¬ d1 > 50 → ¬ d3 > 50 →
      (exampleRun hash tok d1 d2 d3).2.1.metrics.cache_misses = 2 ∧
      (exampleRun hash tok d1 d2 d3).2.1.metrics.cache_hits = 1) := by
  constructor
  · intro hash tok d1 d2 svc state line ln ts hen hsen hlen htok hd1
    by_cases hcc : state.has_cached_tokens ln (hash line) = true
    · have k1 := highlight_line_hit hash tok d1 svc state line ln hen hsen hlen hcc
      have k2 := highlight_line_hit hash tok d2 svc
        { state with metrics := state.metrics.record_cache_hit } line ln hen hsen hlen hcc
      refine ⟨?_, ?_, ?_⟩ <;> rw [k1] <;> dsimp only <;> rw [k2] <;> rfl
    · have hnc : state.has_cached_tokens ln (hash line) = false := by
        cases h : state.has_cached_tokens ln (hash line)
        · rfl
        · exact absurd h hcc
      have k1 := highlight_line_miss_ok hash tok d1 svc state line ln ts
        hen hsen hlen hnc htok hd1
      have hcc2 := has_cached_tokens_cache_tokens_self
        { state with metrics :=
            (state.metrics.record_cache_miss).record_line_highlight d1 ts.length }
        ln (hash line) ts
      have k2 := highlight_line_hit hash tok d2
        { svc with global_metrics :=
            svc.global_metrics.record_line_highlight d1 ts.length }
        (HighlightingState.cache_tokens
          { state with metrics :=
              (state.metrics.record_cache_miss).record_line_highlight d1 ts.length }
          ln (hash line) ts)
        line ln hen hsen hlen hcc2
      refine ⟨?_, ?_, ?_⟩
      · rw [k1]
        dsimp only
        rw [k2]
        dsimp only
        unfold HighlightingState.get_cached_tokens HighlightingState.cache_tokens
        dsimp only
        rw [if_pos rfl]
        rfl
      · rw [k1]
        dsimp only
        rw [k2]
        rfl
      · rw [k1]
        dsimp only
        rw [k2]
        rfl
  · intro hash tok d1 d2 d3 ts1 ts3 hhash htok1 htok3 hd1 hd3
    unfold exampleRun
    dsimp only
    set st0 := HighlightingService.new.create_highlighting_state "t.rs" with hst0
    set c1 := HighlightingService.highlight_line hash tok d1 HighlightingService.new st0
      "fn main() \x7b" 0 with hc1
    set c2 := HighlightingService.highlight_line hash tok d2 c1.2.2 c1.2.1
      "fn main() \x7b" 0 with hc2
    have hc1eq : c1 = (Except.ok ts1,
        HighlightingState.cache_tokens
          { st0 with metrics :=
              (st0.metrics.record_cache_miss).record_line_highlight d1 ts1.length }
          0 (hash "fn main() \x7b") ts1,
        { HighlightingService.new with global_metrics :=
            (HighlightingService.new.global_metrics.record_line_highlight
              d1 ts1.length) }) := by
      rw [hc1]
      exact highlight_line_miss_ok hash tok d1 HighlightingService.new st0
        "fn main() \x7b" 0 ts1 rfl rfl (by decide) rfl htok1 hd1
    have hcc2 : (c1.2.1).has_cached_tokens 0 (hash "fn main() \x7b") = true := by
      rw [hc1eq]
      exact has_cached_tokens_cache_tokens_self _ 0 _ ts1
    have hc2eq : c2 = (Except.ok ((HighlightingState.get_cached_tokens c1.2.1 0).getD []),
        { c1.2.1 with metrics := c1.2.1.metrics.record_cache_hit }, c1.2.2) := by
      rw [hc2]
      exact highlight_line_hit hash tok d2 c1.2.2 c1.2.1 "fn main() \x7b" 0
        (by rw [hc1eq]; rfl) (by rw [hc1eq]; rfl)
        (by rw [hc1eq]; show ¬ byteLen "fn main() \x7b" > 10000; decide) hcc2
    have hnc3 : HighlightingState.has_cached_tokens
        { c1.2.1 with metrics := c1.2.1.metrics.record_cache_hit } 0
        (hash "let x = 5;") = false := by
      show (c1.2.1).has_cached_tokens 0 (hash "let x = 5;") = false
      rw [hc1eq]
      exact has_cached_tokens_cache_tokens_ne _ 0 _ _ ts1 hhash
    have k3 := highlight_line_miss_ok hash tok d3 c1.2.2
      { c1.2.1 with metrics := c1.2.1.metrics.record_cache_hit } "let x = 5;" 0 ts3
      (by rw [hc1eq]; rfl) (by rw [hc1eq]; rfl)
      (by rw [hc1eq]; show ¬ byteLen "let x = 5;" > 10000; decide) hnc3
      (by rw [hc1eq]; exact htok3) (by rw [hc1eq]; exact hd3)
    rw [hc2eq]
    dsimp only
    rw [k3]
    constructor
    · show ((((c1.2.1.metrics.record_cache_hit).record_cache_miss).record_line_highlight
          d3 ts3.length)).cache_misses = 2
      rw [(record_line_highlight_counters _ d3 ts3.length).2]
      show c1.2.1.metrics.cache_misses + 1 = 2
      rw [hc1eq]
      show ((st0.metrics.record_cache_miss).record_line_highlight d1
        ts1.length).cache_misses + 1 = 2
      rw [(record_line_highlight_counters _ d1 ts1.length).2]
      rfl
    · show ((((c1.2.1.metrics.record_cache_hit).record_cache_miss).record_line_highlight
          d3 ts3.length)).cache_hits = 1
      rw [(record_line_highlight_counters _ d3 ts3.length).1]
      show c1.2.1.metrics.cache_hits + 1 = 1
      rw [hc1eq]
      show ((st0.metrics.record_cache_miss).record_line_highlight d1
        ts1.length).cache_hits + 1 = 1
      rw [(record_line_highlight_counters _ d1 ts1.length).1]
      rfl

/-- Counterexample to C5 as stated: on an enabled state whose service has
`max_line_length = 2`, highlighting the 3-byte line `"abc"` twice returns
identical plain spans but the second call does not increment the cache-hit
counter — over-long lines bypass the cache entirely. -/
theorem highlight_line_cache_idempotent_cex :
    ((HighlightingService.new.set_max_line_length 2).create_highlighting_state
        "t.rs").enabled = true ∧
    (HighlightingService.highlight_line (fun _ => 0) (fun _ _ _ => Except.ok []) 0
      (HighlightingService.highlight_line (fun _ => 0) (fun _ _ _ => Except.ok []) 0
        (HighlightingService.new.set_max_line_length 2)
        ((HighlightingService.new.set_max_line_length 2).create_highlighting_state
          "t.rs") "abc" 0).2.2
      (HighlightingService.highlight_line (fun _ => 0) (fun _ _ _ => Except.ok []) 0
        (HighlightingService.new.set_max_line_length 2)
        ((HighlightingService.new.set_max_line_length 2).create_highlighting_state
          "t.rs") "abc" 0).2.1
      "abc" 0).2.1.metrics.cache_hits
      = (HighlightingService.highlight_line (fun _ => 0) (fun _ _ _ => Except.ok []) 0
        (HighlightingService.new.set_max_line_length 2)
        ((HighlightingService.new.set_max_line_length 2).create_highlighting_state
          "t.rs") "abc" 0).2.1.metrics.cache_hits ∧
    (HighlightingService.highlight_line (fun _ => 0) (fun _ _ _ => Except.ok []) 0
      (HighlightingService.new.set_max_line_length 2)
      ((HighlightingService.new.set_max_line_length 2).create_highlighting_state
        "t.rs") "abc" 0).2.1.metrics.cache_hits = 0 :=
  ⟨rfl, rfl, rfl⟩

/-- Witness for C5 at a concrete hash, tokenizer and timing. -/
theorem highlight_line_cache_idempotent_witness :
    (exampleRun (fun s => s.length)
      (fun _ l _ => Except.ok [TokenInfo.plain_text l 0 (byteLen l)])
      3 3 3).2.1.metrics.cache_misses = 2 ∧
    (exampleRun (fun s => s.length)
      (fun _ l _ => Except.ok [TokenInfo.plain_text l 0 (byteLen l)])
      3 3 3).2.1.metrics.cache_hits = 1 :=
  highlight_line_cache_idempotent.2 (fun s => s.length)
    (fun _ l _ => Except.ok [TokenInfo.plain_text l 0 (byteLen l)]) 3 3 3
    [TokenInfo.plain_text "fn main() \x7b" 0 (byteLen "fn main() \x7b")]
    [TokenInfo.plain_text "let x = 5;" 0 (byteLen "let x = 5;")]
    (by decide) rfl rfl (by decide) (by decide)

/-! ### Claim C1 — dirty/cache disjointness -/

/-- The invariant of the claim: every line in the dirty set has no
token-cache entry. -/
def DirtyCacheInv (s : HighlightingState) : Prop :=
  ∀ l, s.dirty_lines l = true → s.token_cache l = none

/-- States reachable from a fresh state via the subset of the claim's
operation set that preserves the invariant: marking, invalidation and
clearing primitives, text insertion, and the viewport/queue operations.
The operations excluded here — `cache_tokens` after a dirty mark,
`handle_text_delete` (which marks `start_line` dirty without invalidating
a cache entry shifted onto it), and the service's `highlight_line` /
`highlight_background_batch` (which cache a line without clearing its
dirty flag) — are exactly the ones the counterexample shows violate the
invariant. -/
inductive ReachableNoCaching : HighlightingState → Prop where
  | init (language : Language) : ReachableNoCaching (HighlightingState.new language)
  | mark_line (s : HighlightingState) (ln : Nat) :
      ReachableNoCaching s → ReachableNoCaching (s.mark_line_dirty ln)
  | mark_lines (s : HighlightingState) (a b : Nat) :
      ReachableNoCaching s → ReachableNoCaching (s.mark_lines_dirty a b)
  | mark_document (s : HighlightingState) :
      ReachableNoCaching s → ReachableNoCaching s.mark_document_dirty
  | inval_line (s : HighlightingState) (ln : Nat) :
      ReachableNoCaching s → ReachableNoCaching (s.invalidate_line_cache ln)
  | inval_range (s : HighlightingState) (a b : Nat) :
      ReachableNoCaching s → ReachableNoCaching (s.invalidate_line_range_cache a b)
  | clear_cache (s : HighlightingState) :
      ReachableNoCaching s → ReachableNoCaching s.clear_cache
  | clear_line (s : HighlightingState) (ln : Nat) :
      ReachableNoCaching s → ReachableNoCaching (s.clear_line_dirty ln)
  | clear_all (s : HighlightingState) :
      ReachableNoCaching s → ReachableNoCaching s.clear_all_dirty
  | insert (s : HighlightingState) (a n : Nat) :
      ReachableNoCaching s → ReachableNoCaching (s.handle_text_insert a n)
  | viewport (s : HighlightingState) (a b : Nat) :
      ReachableNoCaching s → ReachableNoCaching (s.update_viewport a b)
  | batch (s : HighlightingState) :
      ReachableNoCaching s → ReachableNoCaching s.get_background_batch.2
  | complete (s : HighlightingState) (ln : Nat) :
      ReachableNoCaching s → ReachableNoCaching (s.complete_background_line ln)

theorem update_viewport_dirty_cache (s : HighlightingState) (a b : Nat) :
    (s.update_viewport a b).dirty_lines = s.dirty_lines ∧
    (s.update_viewport a b).token_cache = s.token_cache := by
  unfold HighlightingState.update_viewport
  cases hv : s.viewport with
  | none =>
    exact ⟨(rebuild_background_queue_frame _).2.2.1.trans rfl,
           (rebuild_background_queue_frame _).1.trans rfl⟩
  | some p =>
    cases p with
    | mk os oe =>
      dsimp only
      split
      · exact ⟨rfl, rfl⟩
      · exact ⟨(rebuild_background_queue_frame _).2.2.1.trans rfl,
               (rebuild_background_queue_frame _).1.trans rfl⟩

/-- C1 (amended): the dirty/cache disjointness invariant holds in every
state reachable via the marking, invalidation, clearing, insertion and
viewport/queue operations, but not under the claim's full operation set:
`cache_tokens`, `handle_text_delete`, and the caching service calls can
leave a line simultaneously dirty and cached (see the counterexample). -/
theorem dirty_cache_invariant_restricted (s : HighlightingState)
    (h : ReachableNoCaching s) : DirtyCacheInv s := by
  induction h with
  | init language => intro l hl; exact absurd hl (by simp [HighlightingState.new])
  | mark_line s ln _ ih =>
    intro l hl
    unfold HighlightingState.mark_line_dirty HighlightingState.invalidate_line_cache
      at hl ⊢
    dsimp only at hl ⊢
    by_cases hln : l = ln
    · rw [if_pos hln]
    · rw [if_neg hln] at hl ⊢
      exact ih l hl
  | mark_lines s a b _ ih =>
    intro l hl
    unfold HighlightingState.mark_lines_dirty
      HighlightingState.invalidate_line_range_cache at hl ⊢
    dsimp only at hl ⊢
    by_cases hab : a ≤ l ∧ l ≤ b
    · rw [if_pos hab]
    · rw [if_neg hab] at hl ⊢
      exact ih l hl
  | mark_document s _ ih =>
    intro l hl
    exact absurd hl (by simp [HighlightingState.mark_document_dirty])
  | inval_line s ln _ ih =>
    intro l hl
    unfold HighlightingState.invalidate_line_cache
    dsimp only
    by_cases hln : l = ln
    · rw [if_pos hln]
    · rw [if_neg hln]
      exact ih l hl
  | inval_range s a b _ ih =>
    intro l hl
    unfold HighlightingState.invalidate_line_range_cache
    dsimp only
    by_cases hab : a ≤ l ∧ l ≤ b
    · rw [if_pos hab]
    · rw [if_neg hab]
      exact ih l hl
  | clear_cache s _ ih => intro l hl; rfl
  | clear_line s ln _ ih =>
    intro l hl
    unfold HighlightingState.clear_line_dirty at hl
    dsimp only at hl
    by_cases hln : l = ln
    · rw [if_pos hln] at hl; exact absurd hl (by simp)
    · rw [if_neg hln] at hl
      exact ih l hl
  | clear_all s _ ih =>
    intro l hl
    exact absurd hl (by simp [HighlightingState.clear_all_dirty])
  | insert s a n _ ih =>
    by_cases hn : n = 0
    · rw [hn]
      intro l hl
      rw [HighlightingState.handle_text_insert, if_pos rfl] at hl ⊢
      exact ih l hl
    · have hf := handle_text_insert_frame s a n hn
      intro l hl
      rw [hf.2.2.1] at hl
      rw [hf.1]
      unfold HighlightingState.insertShift at hl ⊢
      dsimp only at hl ⊢
      by_cases h1 : l < a
      · rw [if_pos h1] at hl ⊢
        exact ih l hl
      · rw [if_neg h1] at hl ⊢
        by_cases h2 : a + n ≤ l
        · rw [if_pos h2] at hl ⊢
          exact ih (l - n) hl
        · rw [if_neg h2]
  | viewport s a b _ ih =>
    intro l hl
    rw [(update_viewport_dirty_cache s a b).1] at hl
    rw [(update_viewport_dirty_cache s a b).2]
    exact ih l hl
  | batch s _ ih => intro l hl; exact ih l hl
  | complete s ln _ ih => intro l hl; exact ih l hl

/-- Counterexample to C1 as stated: two reachable states with a line both
dirty and cached.  `cache_tokens` after `mark_line_dirty` does not clear
the dirty flag, and `handle_text_delete` marks `start_line` dirty while a
cache entry shifted down from line `start_line + n` lands on it. -/
theorem dirty_cache_invariant_cex :
    (((HighlightingState.new Language.Rust).mark_line_dirty 5).cache_tokens 5 42
      []).dirty_lines 5 = true ∧
    ((((HighlightingState.new Language.Rust).mark_line_dirty 5).cache_tokens 5 42
      []).token_cache 5).isSome = true ∧
    (((HighlightingState.new Language.Rust).cache_tokens 5 42 []).handle_text_delete
      3 2).dirty_lines 3 = true ∧
    ((((HighlightingState.new Language.Rust).cache_tokens 5 42 []).handle_text_delete
      3 2).token_cache 3).isSome = true :=
  ⟨rfl, rfl, rfl, rfl⟩

/-- Witness for C1 applied at a concretely reachable state. -/
theorem dirty_cache_invariant_restricted_witness :
    ((HighlightingState.new Language.Rust).mark_line_dirty 5).token_cache 5 = none :=
  dirty_cache_invariant_restricted _
    (ReachableNoCaching.mark_line _ 5 (ReachableNoCaching.init Language.Rust)) 5 rfl

end Edit
